import Mathlib

/-!
Verification of the penmit provider/model resolution engine and the
accept-regenerate-edit interaction loop.

The definitions below are a shallow embedding of the TypeScript sources:
the resolution engine (`resolveProvider`, `resolveApiKey`,
`resolveAnthropicModel`, `resolveOllamaModel` in src/resolve.ts),
argument parsing (`parseArgs` in src/config.ts), the terminal key
handlers (`promptUser`, `editMessage`, `selectFromList` in src/tui.ts),
the commit collaborator (`runCommit` in src/git.ts), the provider wire
clients' response handling (src/ollama.ts, src/anthropic.ts,
src/openai.ts), and the orchestrator's resolution / persistence phase
and interaction loop (`run` in src/cli.ts).  External effects (terminal
input, the model-inventory HTTP call, the spawned git process) are
passed in as explicit arguments; process exits become explicit
constructors.  JavaScript string trimming is modelled by `jsTrim`,
JavaScript string truthiness by `isTruthy`.
-/

namespace Penmit

/-! ## Data model (src/types.ts) -/

/-- The three provider families (src/types.ts `Provider`). -/
inductive Provider where
  | ollama
  | anthropic
  | openai
  deriving DecidableEq, Repr

/-- Connection mode of the ollama provider (src/types.ts `OllamaMode`). -/
inductive OllamaMode where
  | local
  | cloud
  deriving DecidableEq, Repr

/-- Result of argv parsing (src/types.ts `ParsedArgs`). -/
structure ParsedArgs where
  model : Option String := none
  provider : Option Provider := none
  ollamaMode : Option OllamaMode := none
  help : Bool := false
  version : Bool := false
  setup : Bool := false
  deriving DecidableEq, Repr

/-- Persisted preferences (src/types.ts `UserConfig`). -/
structure UserConfig where
  provider : Option Provider := none
  ollamaMode : Option OllamaMode := none
  model : Option String := none
  apiKey : Option String := none
  deriving DecidableEq, Repr

/-- The credential-carrying environment variables read by the engine. -/
structure Env where
  anthropicApiKey : Option String := none
  openaiApiKey : Option String := none
  ollamaApiKey : Option String := none
  deriving DecidableEq, Repr

/-- JavaScript truthiness of an optional string: defined and non-empty. -/
def isTruthy : Option String → Bool
  | none => false
  | some s => !(s == "")

/-! ## JavaScript string trimming

`String.prototype.trim` removes leading and trailing whitespace.  It is
modelled on the character list of a Lean string, with `Char.isWhitespace`
standing in for the JavaScript whitespace class. -/

/-- Whitespace test used by the trim model. -/
def jsWhitespaceChar (c : Char) : Bool := c.isWhitespace

/-- Characters of a string after removing leading and trailing whitespace. -/
def trimChars (cs : List Char) : List Char :=
  ((cs.dropWhile jsWhitespaceChar).reverse.dropWhile jsWhitespaceChar).reverse

/-- Model of JavaScript `s.trim()`. -/
def jsTrim (s : String) : String := String.mk (trimChars s.data)

/-! ## Terminal line input (src/tui.ts `promptInput`)

`promptInput` reads a line and returns it trimmed; the raw line is an
explicit argument here. -/

/-- Result of `promptInput` on the raw line `raw`. -/
def promptInput (raw : String) : String := jsTrim raw

/-! ## Provider resolution (src/resolve.ts `resolveProvider`) -/

/-- Return value of provider resolution. -/
structure ProviderChoice where
  provider : Provider
  ollamaMode : Option OllamaMode
  fromInteractive : Bool
  deriving DecidableEq, Repr

/-- The four entries of the interactive provider menu. -/
inductive ProviderPickerChoice where
  | ollamaLocal
  | ollamaCloud
  | anthropic
  | openai
  deriving DecidableEq, Repr

/-- Mapping of a provider-menu selection to the returned choice
(src/resolve.ts, tail of `resolveProvider`). -/
def pickedProvider : ProviderPickerChoice → ProviderChoice
  | .anthropic => ⟨Provider.anthropic, none, true⟩
  | .openai => ⟨Provider.openai, none, true⟩
  | .ollamaCloud => ⟨Provider.ollama, some OllamaMode.cloud, true⟩
  | .ollamaLocal => ⟨Provider.ollama, some OllamaMode.local, true⟩

/-- src/resolve.ts `resolveProvider`: CLI flag, then the credential
environment variables in a fixed order, then the saved provider unless
`--setup`, then the interactive picker (whose selection is the `pick`
argument). -/
def resolveProvider (args : ParsedArgs) (savedConfig : UserConfig) (env : Env)
    (pick : ProviderPickerChoice) : ProviderChoice :=
  match args.provider with
  | some p => ⟨p, args.ollamaMode, false⟩
  | none =>
    if isTruthy env.anthropicApiKey = true then ⟨Provider.anthropic, none, false⟩
    else if isTruthy env.openaiApiKey = true then ⟨Provider.openai, none, false⟩
    else if isTruthy env.ollamaApiKey = true then ⟨Provider.ollama, some OllamaMode.cloud, false⟩
    else
      match savedConfig.provider with
      | some p => if args.setup = false then ⟨p, savedConfig.ollamaMode, false⟩
                  else pickedProvider pick
      | none => pickedProvider pick

/-! ## Credential resolution (src/resolve.ts `resolveApiKey`) -/

/-- Outcome of `resolveApiKey`: a key, or a process exit. -/
inductive KeyResult where
  | exit (code : Nat) (message : String)
  | obtained (key : String)
  deriving DecidableEq, Repr

/-- The no-key tail of `resolveApiKey`: non-interactive terminals get a
fatal error naming the environment variable; interactive terminals get a
free-text prompt whose empty answer is fatal. -/
def resolveApiKeyNoKey (label envVarName : String) (isTTY : Bool) (raw : String) : KeyResult :=
  if isTTY = false then
    .exit 1 (label ++ " provider requires " ++ envVarName ++ ".\nSet it with: "
      ++ envVarName ++ "=... aicommit")
  else
    let entered := promptInput raw
    if entered = "" then .exit 1 ("API key is required for " ++ label ++ " provider.")
    else .obtained entered

/-- src/resolve.ts `resolveApiKey`: `envKey?.trim() || savedKey?.trim()`,
falling back to the no-key tail when neither is truthy. -/
def resolveApiKey (envKey savedKey : Option String) (label envVarName : String)
    (isTTY : Bool) (raw : String) : KeyResult :=
  let key : Option String :=
    match envKey.map jsTrim with
    | some t => if t = "" then savedKey.map jsTrim else some t
    | none => savedKey.map jsTrim
  match key with
  | some t => if t = "" then resolveApiKeyNoKey label envVarName isTTY raw else .obtained t
  | none => resolveApiKeyNoKey label envVarName isTTY raw

/-! ## Model resolution (src/resolve.ts) -/

/-- Outcome of a model-resolution step: a process exit, an error thrown
to the caller (`LLMError`), or a model with the interactivity flag. -/
inductive ModelResult where
  | exit (code : Nat) (message : String)
  | failure (message : String)
  | ok (model : String) (fromInteractive : Bool)
  deriving DecidableEq, Repr

/-- src/anthropic.ts `ANTHROPIC_CUSTOM_MODEL`. -/
def ANTHROPIC_CUSTOM_MODEL : String := "__custom__"

/-- src/ollama.ts `DEFAULT_CLOUD_MODEL`. -/
def DEFAULT_CLOUD_MODEL : String := "devstral-small-2:24b"

/-- src/resolve.ts `resolveAnthropicModel`; the menu selection and the
raw custom-model line are explicit arguments. -/
def resolveAnthropicModel (args : ParsedArgs) (savedConfig : UserConfig)
    (pick : String) (customRaw : String) : ModelResult :=
  match args.model with
  | some m => .ok m false
  | none =>
    if args.setup = false ∧ savedConfig.provider = some Provider.anthropic
        ∧ isTruthy savedConfig.model = true then
      .ok (savedConfig.model.getD "") false
    else if pick = ANTHROPIC_CUSTOM_MODEL then
      let model := promptInput customRaw
      if model = "" then .exit 1 "Model name is required."
      else .ok model true
    else .ok pick true

/-- The saved-model guard of local-mode resolution (src/resolve.ts
`resolveOllamaModel`): no `--setup`, saved provider is ollama in local
mode, a saved model exists and is still in the live inventory. -/
def savedLocalStillInstalled (args : ParsedArgs) (savedConfig : UserConfig)
    (models : List String) : Bool :=
  !args.setup
    && decide (savedConfig.provider = some Provider.ollama)
    && decide (savedConfig.ollamaMode = some OllamaMode.local)
    && isTruthy savedConfig.model
    && models.contains (savedConfig.model.getD "")

/-- The `LLMError` message thrown on an empty local inventory
(src/resolve.ts `resolveOllamaModel`). -/
def noLocalModelsMessage : String :=
  "No local models found. Install one with:\n  ollama pull llama3.2"

/-- Result of `resolveOllamaModel` together with the number of times the
interactive model picker (`selectFromList`) was invoked. -/
structure OllamaResolveOutcome where
  result : ModelResult
  pickerCalls : Nat
  deriving DecidableEq, Repr

/-- src/resolve.ts `resolveOllamaModel`.  The live inventory returned by
`getLocalModels`, the raw cloud-model line and the picker selection are
explicit arguments. -/
def resolveOllamaModel (args : ParsedArgs) (savedConfig : UserConfig) (mode : OllamaMode)
    (models : List String) (cloudRaw : String) (pick : String) : OllamaResolveOutcome :=
  match args.model with
  | some m => ⟨.ok m false, 0⟩
  | none =>
    match mode with
    | OllamaMode.cloud =>
      let saved : Option String :=
        if savedConfig.ollamaMode = some OllamaMode.cloud then savedConfig.model else none
      if isTruthy saved = true ∧ args.setup = false then
        ⟨.ok (saved.getD "") false, 0⟩
      else
        let entered := promptInput cloudRaw
        ⟨.ok (if entered = "" then DEFAULT_CLOUD_MODEL else entered) true, 0⟩
    | OllamaMode.local =>
      match models with
      | [] => ⟨.failure noLocalModelsMessage, 0⟩
      | first :: _ =>
        if savedLocalStillInstalled args savedConfig models = true then
          ⟨.ok (savedConfig.model.getD "") false, 0⟩
        else if args.provider.isSome = true ∧ args.setup = false then
          ⟨.ok first false, 0⟩
        else
          ⟨.ok pick true, 1⟩

/-! ## Argument parsing (src/config.ts `parseArgs`) -/

/-- Model of JavaScript `s.startsWith(p)`. -/
def jsStartsWith (s p : String) : Bool := p.data.isPrefixOf s.data

/-- The loop body of `parseArgs`, folding argv into the accumulated
`ParsedArgs`; an unknown option or a `--model` with a missing or
flag-shaped value throws (modelled as `Except.error` with the thrown
message). -/
def parseArgsGo : List String → ParsedArgs → Except String ParsedArgs
  | [], acc => .ok acc
  | arg :: rest, acc =>
    if arg = "--help" ∨ arg = "-h" then parseArgsGo rest { acc with help := true }
    else if arg = "--version" ∨ arg = "-v" then parseArgsGo rest { acc with version := true }
    else if arg = "--local" then
      parseArgsGo rest { acc with provider := some Provider.ollama,
                                  ollamaMode := some OllamaMode.local }
    else if arg = "--cloud" then
      parseArgsGo rest { acc with provider := some Provider.ollama,
                                  ollamaMode := some OllamaMode.cloud }
    else if arg = "--anthropic" then parseArgsGo rest { acc with provider := some Provider.anthropic }
    else if arg = "--setup" then parseArgsGo rest { acc with setup := true }
    else if arg = "--model" ∨ arg = "-m" then
      match rest with
      | [] => .error (arg ++ " requires a model name (e.g. --model mistral)")
      | next :: rest2 =>
        if next = "" ∨ jsStartsWith next "-" = true then
          .error (arg ++ " requires a model name (e.g. --model mistral)")
        else parseArgsGo rest2 { acc with model := some next }
    else .error ("Unknown option: " ++ arg)

/-- src/config.ts `parseArgs`. -/
def parseArgs (argv : List String) : Except String ParsedArgs :=
  parseArgsGo argv {}

/-! ## Terminal key handlers (src/tui.ts)

Each keypress handler is modelled as a function from the delivered key
event (possibly absent, as the listener receives) to the action taken;
`cancel()` is `console.log` plus `process.exit(0)`, modelled as an
explicit `exitProcess 0` action. -/

/-- A readline keypress event as seen by the listeners. -/
structure KeyEvent where
  name : Option String := none
  ctrl : Bool := false
  deriving DecidableEq, Repr

/-- The user's choice at the message prompt (src/types.ts `UserChoice`). -/
inductive UserChoice where
  | accept
  | regenerate
  | edit
  deriving DecidableEq, Repr

/-- Action taken by `promptUser`'s key handler on one event. -/
inductive PromptStep where
  | exitProcess (code : Nat)
  | resolve (choice : UserChoice)
  | ignore
  deriving DecidableEq, Repr

/-- Model of JavaScript `s.toLowerCase()` on key names (ASCII letters). -/
def jsToLower (s : String) : String := String.mk (s.data.map Char.toLower)

/-- src/tui.ts `promptUser`, `onKey`: lower-cased key name; escape or
ctrl-c cancels (process exit 0), `a`/`r`/`e` resolve, anything else is
ignored and the prompt keeps waiting. -/
def promptUserOnKey : Option KeyEvent → PromptStep
  | none => .ignore
  | some key =>
    let name := key.name.map jsToLower
    if name = some "escape" ∨ (key.ctrl = true ∧ name = some "c") then .exitProcess 0
    else if name = some "a" then .resolve .accept
    else if name = some "r" then .resolve .regenerate
    else if name = some "e" then .resolve .edit
    else .ignore

/-- Action taken by `selectFromList`'s key handler on one event. -/
inductive SelectStep where
  | exitProcess (code : Nat)
  | moveUp
  | moveDown
  | choose
  | ignore
  deriving DecidableEq, Repr

/-- src/tui.ts `selectFromList`, `onKey`: ctrl-c or escape cancels
(process exit 0); up/down move the cursor; return chooses the current
item; anything else is ignored. -/
def selectFromListOnKey : Option KeyEvent → SelectStep
  | none => .ignore
  | some key =>
    if (key.ctrl = true ∧ key.name = some "c") ∨ key.name = some "escape" then .exitProcess 0
    else if key.name = some "up" then .moveUp
    else if key.name = some "down" then .moveDown
    else if key.name = some "return" then .choose
    else .ignore

/-- Action taken by `editMessage`'s key handler on one event. -/
inductive EditStep where
  | exitProcess (code : Nat)
  | ignore
  deriving DecidableEq, Repr

/-- src/tui.ts `editMessage`, `onKey`: only an `escape` key name cancels
(process exit 0); every other event, interrupts included, is ignored by
this handler. -/
def editMessageOnKey : Option KeyEvent → EditStep
  | some key => if key.name = some "escape" then .exitProcess 0 else .ignore
  | none => .ignore

/-- src/tui.ts `editMessage`, result value: `edited.trim() || original` —
the trimmed edited line when non-empty, else the unmodified original. -/
def editMessageResult (original edited : String) : String :=
  if jsTrim edited = "" then original else jsTrim edited

/-! ## Commit collaborator (src/git.ts) -/

/-- Result of a spawned subprocess, as used by the git spawners. -/
structure SpawnResult where
  stdout : String
  error : Option String := none
  status : Option Int := none

/-- src/git.ts `runCommit`: spawn `git commit -m <message>`; a spawn
failure throws `GitError`; otherwise the exit status is returned with
`null` mapped to 1. -/
def runCommit (message : String) (spawner : String → List String → SpawnResult) :
    Except String Int :=
  let result := spawner "git" ["commit", "-m", message]
  match result.error with
  | some e => .error ("Failed to run git commit: " ++ e)
  | none => .ok (result.status.getD 1)

/-! ## The interaction loop (src/cli.ts `run`, final while loop)

One `Turn` is the resolved outcome of one pass: the message prompt ends
in cancellation (escape/interrupt, which exits the process inside
`promptUser`) or in one of the three choices; a regenerate carries the
new generation's result (a generation error exits 1); an edit either
cancels inside the dialog or submits a raw line.  The loop returns the
list of messages passed to the commit collaborator together with how
the run ended. -/

/-- Outcome of one full pass of the interaction loop. -/
inductive Turn where
  | cancel
  | accept
  | regenerate (gen : Except String String)
  | editCancel
  | editSubmit (raw : String)

/-- How the interaction loop ended. -/
inductive LoopResult where
  | exited (code : Int)
  | completed
  | pending
  deriving DecidableEq, Repr

/-- src/cli.ts `run`, final while loop: accept commits the current
message (a non-zero commit status becomes the process exit status);
regenerate replaces the message and loops; edit commits the edit
dialog's result immediately; cancellation exits 0. -/
def runInteractionLoop (commit : String → Int) : String → List Turn → List String × LoopResult
  | _, [] => ([], .pending)
  | message, turn :: rest =>
    match turn with
    | .cancel => ([], .exited 0)
    | .accept =>
      let status := commit message
      ([message], if status ≠ 0 then .exited status else .completed)
    | .regenerate gen =>
      match gen with
      | .error _ => ([], .exited 1)
      | .ok m2 => runInteractionLoop commit m2 rest
    | .editCancel => ([], .exited 0)
    | .editSubmit raw =>
      let m2 := editMessageResult message raw
      let status := commit m2
      ([m2], if status ≠ 0 then .exited status else .completed)

/-! ## Provider wire responses

Each provider's `generateCommitMessage` is modelled from the point the
HTTP response is available: the `ok`/status data and the extracted
content-bearing fields are the input, the returned text or thrown
provider error is the output. -/

/-- An ollama `/api/chat` response: `messageContent` is
`data?.message?.content` when that value is a string. -/
structure OllamaChatResponse where
  ok : Bool
  status : Nat
  statusText : String
  messageContent : Option String

/-- src/ollama.ts `generateCommitMessage`, response handling: non-ok
status throws; a missing or non-string `message.content` throws; the
content is returned trimmed. -/
def ollamaParseResponse (resp : OllamaChatResponse) : Except String String :=
  if resp.ok = false then
    .error ("Ollama returned an error: " ++ toString resp.status ++ " " ++ resp.statusText)
  else
    match resp.messageContent with
    | some content => .ok (jsTrim content)
    | none => .error "Unexpected response from Ollama: missing \"message.content\""

/-- An Anthropic messages response: `errorMessage` is
`errBody?.error?.message`; `contentTexts` holds, per element of the
`content` array, its `text` field when that value is a string. -/
structure AnthropicResponse where
  ok : Bool
  status : Nat
  statusText : String
  errorMessage : Option String
  contentTexts : List (Option String)

/-- src/anthropic.ts `generateCommitMessage`, response handling: non-ok
status throws with the body's error message or the HTTP status; a
missing `content[0].text` throws; the text is returned trimmed. -/
def anthropicParseResponse (resp : AnthropicResponse) : Except String String :=
  if resp.ok = false then
    .error ("Anthropic API error: "
      ++ (resp.errorMessage.getD (toString resp.status ++ " " ++ resp.statusText)))
  else
    match resp.contentTexts.head? with
    | some (some text) => .ok (jsTrim text)
    | _ => .error "Unexpected response from Anthropic API: missing content"

/-- An OpenAI responses-API response: `outputText` is `data?.output_text`
when present, `outputFirstText` is `data?.output?.[0]?.content?.[0]?.text`. -/
structure OpenAIResponse where
  ok : Bool
  status : Nat
  statusText : String
  errorMessage : Option String
  outputText : Option String
  outputFirstText : Option String

/-- src/openai.ts `generateCommitMessage`, response handling: non-ok
status throws with the body's error message or the HTTP status; the text
is `output_text ?? output[0].content[0].text`, missing text throws, and
the text is returned trimmed. -/
def openaiParseResponse (resp : OpenAIResponse) : Except String String :=
  if resp.ok = false then
    .error ("OpenAI API error: "
      ++ (resp.errorMessage.getD (toString resp.status ++ " " ++ resp.statusText)))
  else
    match (match resp.outputText with | some t => some t | none => resp.outputFirstText) with
    | some text => .ok (jsTrim text)
    | none => .error "Unexpected response from OpenAI API: missing content"

/-! ## The orchestrator's resolution and persistence phase
(src/cli.ts `run`, from `resolveProvider` up to `writeUserConfig`)

All terminal interaction results and the live local-model inventory are
collected in one oracle record; the phase either exits the process or
yields the resolved run configuration together with what, if anything,
was written to the preference store. -/

/-- The external inputs consumed by the resolution phase: each prompt's
answer and the inventory returned by `getLocalModels`. -/
structure InteractionOracle where
  providerPick : ProviderPickerChoice := .ollamaLocal
  anthropicKeyRaw : String := ""
  ollamaKeyRaw : String := ""
  anthropicModelPick : String := ""
  anthropicCustomRaw : String := ""
  inventory : List String := []
  cloudModelRaw : String := ""
  localModelPick : String := ""

/-- Outcome of the resolution phase. -/
inductive ResolutionOutcome where
  | exited (code : Nat)
  | resolved (provider : Provider) (ollamaMode : Option OllamaMode) (model : String)
      (apiKey : Option String) (providerFromInteractive modelFromInteractive : Bool)
      (persisted : Option UserConfig)
  deriving DecidableEq, Repr

/-- src/cli.ts `run`, credential step: an API key is resolved only for
Anthropic or ollama-cloud runs, passing the matching saved key through
only when the saved provider/mode matches; other runs carry no key. -/
def runResolutionKeyStep (savedConfig : UserConfig) (env : Env) (isTTY : Bool)
    (io : InteractionOracle) (pr : ProviderChoice) : Except Nat (Option String) :=
  if pr.provider = Provider.anthropic then
    match resolveApiKey env.anthropicApiKey
        (if savedConfig.provider = some Provider.anthropic then savedConfig.apiKey else none)
        "Anthropic" "ANTHROPIC_API_KEY" isTTY io.anthropicKeyRaw with
    | .exit c _ => .error c
    | .obtained k => .ok (some k)
  else if pr.ollamaMode = some OllamaMode.cloud then
    match resolveApiKey env.ollamaApiKey
        (if savedConfig.ollamaMode = some OllamaMode.cloud then savedConfig.apiKey else none)
        "Ollama Cloud" "OLLAMA_API_KEY" isTTY io.ollamaKeyRaw with
    | .exit c _ => .error c
    | .obtained k => .ok (some k)
  else .ok none

/-- src/cli.ts `run`, model step: Anthropic runs use
`resolveAnthropicModel`, every other provider takes the ollama path with
mode `ollamaMode ?? 'local'`; a `process.exit` inside the resolver or a
thrown resolver error caught by `run` both end the process (the caught
error with code 1). -/
def runResolutionModelStep (args : ParsedArgs) (savedConfig : UserConfig)
    (io : InteractionOracle) (pr : ProviderChoice) : Except Nat (String × Bool) :=
  if pr.provider = Provider.anthropic then
    match resolveAnthropicModel args savedConfig io.anthropicModelPick
        io.anthropicCustomRaw with
    | .exit c _ => .error c
    | .failure _ => .error 1
    | .ok m fi => .ok (m, fi)
  else
    match (resolveOllamaModel args savedConfig (pr.ollamaMode.getD OllamaMode.local)
        io.inventory io.cloudModelRaw io.localModelPick).result with
    | .exit c _ => .error c
    | .failure _ => .error 1
    | .ok m fi => .ok (m, fi)

/-- src/cli.ts `run`, persistence step: write the tuple when a
resolution step was interactive or a key was obtained while no saved key
existed (`apiKeyIsNew`); the tuple carries the ollama mode only for the
ollama provider and the key only when one is present. -/
def persistedConfig (savedConfig : UserConfig) (pr : ProviderChoice) (model : String)
    (modelFromInteractive : Bool) (apiKey : Option String) : Option UserConfig :=
  if pr.fromInteractive = true ∨ modelFromInteractive = true ∨
      ((pr.ollamaMode = some OllamaMode.cloud ∨ pr.provider = Provider.anthropic)
        ∧ isTruthy savedConfig.apiKey = false ∧ isTruthy apiKey = true) then
    some { provider := some pr.provider,
           ollamaMode := if pr.provider = Provider.ollama then pr.ollamaMode else none,
           model := some model,
           apiKey := apiKey }
  else none

/-- src/cli.ts `run`, resolution phase: provider, then credential, then
model, then the persistence decision. -/
def runResolution (args : ParsedArgs) (savedConfig : UserConfig) (env : Env)
    (isTTY : Bool) (io : InteractionOracle) : ResolutionOutcome :=
  let pr := resolveProvider args savedConfig env io.providerPick
  match runResolutionKeyStep savedConfig env isTTY io pr with
  | .error c => .exited c
  | .ok apiKey =>
    match runResolutionModelStep args savedConfig io pr with
    | .error c => .exited c
    | .ok (model, modelFromInteractive) =>
      .resolved pr.provider pr.ollamaMode model apiKey pr.fromInteractive
        modelFromInteractive (persistedConfig savedConfig pr model modelFromInteractive apiKey)

/-! ## Supporting lemmas: trimming is idempotent -/

theorem head?_dropWhile_ws (cs : List Char) (c : Char)
    (h : (cs.dropWhile jsWhitespaceChar).head? = some c) : jsWhitespaceChar c = false := by
  induction cs with
  | nil => simp [List.dropWhile] at h
  | cons x xs ih =>
    by_cases hx : jsWhitespaceChar x = true
    · exact ih (by simpa [List.dropWhile, hx] using h)
    · simp only [List.dropWhile, hx, Bool.false_eq_true, if_false, List.head?] at h
      simp only [Bool.not_eq_true] at hx
      cases h
      exact hx

theorem dropWhile_ws_dropWhile_ws (cs : List Char) :
    (cs.dropWhile jsWhitespaceChar).dropWhile jsWhitespaceChar = cs.dropWhile jsWhitespaceChar := by
  cases hd : cs.dropWhile jsWhitespaceChar with
  | nil => rfl
  | cons c rest =>
    have hc : jsWhitespaceChar c = false := head?_dropWhile_ws cs c (by simp [hd])
    simp [List.dropWhile, hc]

theorem dropWhile_ws_suffix (cs : List Char) :
    ∃ pre, pre ++ cs.dropWhile jsWhitespaceChar = cs := by
  induction cs with
  | nil => exact ⟨[], rfl⟩
  | cons x xs ih =>
    by_cases hx : jsWhitespaceChar x = true
    · obtain ⟨pre, hpre⟩ := ih
      exact ⟨x :: pre, by simp [List.dropWhile, hx, hpre]⟩
    · exact ⟨[], by simp [List.dropWhile, hx]⟩

theorem trimChars_idem (cs : List Char) : trimChars (trimChars cs) = trimChars cs := by
  have hrev : (trimChars cs).reverse
      = (cs.dropWhile jsWhitespaceChar).reverse.dropWhile jsWhitespaceChar := by
    simp [trimChars]
  have h2 : (trimChars cs).reverse.dropWhile jsWhitespaceChar = (trimChars cs).reverse := by
    rw [hrev, dropWhile_ws_dropWhile_ws]
  have h1 : (trimChars cs).dropWhile jsWhitespaceChar = trimChars cs := by
    cases hT : trimChars cs with
    | nil => rfl
    | cons b B2 =>
      obtain ⟨pre, hpre⟩ := dropWhile_ws_suffix (cs.dropWhile jsWhitespaceChar).reverse
      have hcs : cs.dropWhile jsWhitespaceChar = trimChars cs ++ pre.reverse := by
        have := congrArg List.reverse hpre
        simpa [trimChars, List.reverse_append, List.reverse_reverse] using this.symm
      have hb : jsWhitespaceChar b = false := by
        refine head?_dropWhile_ws cs b ?_
        rw [hcs, hT]
        rfl
      simp [List.dropWhile, hb]
  have hout : trimChars (trimChars cs)
      = (((trimChars cs).dropWhile jsWhitespaceChar).reverse.dropWhile jsWhitespaceChar).reverse :=
    rfl
  rw [hout, h1, h2, List.reverse_reverse]

theorem jsTrim_idem (s : String) : jsTrim (jsTrim s) = jsTrim s := by
  show jsTrim (String.mk (trimChars s.data)) = String.mk (trimChars s.data)
  unfold jsTrim
  rw [show (String.mk (trimChars s.data)).data = trimChars s.data from rfl, trimChars_idem]

/-! ## Claim theorems -/

/-- C1: provider resolution precedence, highest first: an explicit CLI
provider flag is used non-interactively; else a credential environment
variable (set to a non-empty value, which is the source's truthiness
test) selects its provider non-interactively, checked in the fixed order
Anthropic key, then OpenAI key, then Ollama-cloud key, the Ollama key
implying ollama/cloud; else a saved provider is used non-interactively
unless `--setup` was given; otherwise the interactive provider menu's
choice is returned with `fromInteractive = true`, while every earlier
branch returns `fromInteractive = false`. -/
theorem resolveProvider_precedence :
    (∀ args saved env pick p, args.provider = some p →
        resolveProvider args saved env pick = ⟨p, args.ollamaMode, false⟩)
    ∧ (∀ args saved env pick, args.provider = none →
        isTruthy env.anthropicApiKey = true →
        resolveProvider args saved env pick = ⟨Provider.anthropic, none, false⟩)
    ∧ (∀ args saved env pick, args.provider = none →
        isTruthy env.anthropicApiKey = false → isTruthy env.openaiApiKey = true →
        resolveProvider args saved env pick = ⟨Provider.openai, none, false⟩)
    ∧ (∀ args saved env pick, args.provider = none →
        isTruthy env.anthropicApiKey = false → isTruthy env.openaiApiKey = false →
        isTruthy env.ollamaApiKey = true →
        resolveProvider args saved env pick = ⟨Provider.ollama, some OllamaMode.cloud, false⟩)
    ∧ (∀ args saved env pick p, args.provider = none →
        isTruthy env.anthropicApiKey = false → isTruthy env.openaiApiKey = false →
        isTruthy env.ollamaApiKey = false → saved.provider = some p → args.setup = false →
        resolveProvider args saved env pick = ⟨p, saved.ollamaMode, false⟩)
    ∧ (∀ args saved env pick, args.provider = none →
        isTruthy env.anthropicApiKey = false → isTruthy env.openaiApiKey = false →
        isTruthy env.ollamaApiKey = false → (saved.provider = none ∨ args.setup = true) →
        resolveProvider args saved env pick = pickedProvider pick
          ∧ (pickedProvider pick).fromInteractive = true) := by
  refine ⟨?_, ?_, ?_, ?_, ?_, ?_⟩
  · intro args saved env pick p hp
    simp [resolveProvider, hp]
  · intro args saved env pick hp ha
    simp [resolveProvider, hp, ha]
  · intro args saved env pick hp ha ho
    simp [resolveProvider, hp, ha, ho]
  · intro args saved env pick hp ha ho hl
    simp [resolveProvider, hp, ha, ho, hl]
  · intro args saved env pick p hp ha ho hl hs hsetup
    simp [resolveProvider, hp, ha, ho, hl, hs, hsetup]
  · intro args saved env pick hp ha ho hl hcase
    refine ⟨?_, by cases pick <;> rfl⟩
    rcases hcase with hs | hsetup
    · simp [resolveProvider, hp, ha, ho, hl, hs]
    · cases hsp : saved.provider <;> simp [resolveProvider, hp, ha, ho, hl, hsp, hsetup]

/-- C1 witness: the `--anthropic` CLI flag wins non-interactively over a
set Ollama-cloud key and a saved OpenAI provider. -/
theorem resolveProvider_precedence_witness :
    resolveProvider { provider := some Provider.anthropic }
        { provider := some Provider.openai } { ollamaApiKey := some "sk" }
        ProviderPickerChoice.ollamaLocal
      = ⟨Provider.anthropic, none, false⟩ :=
  resolveProvider_precedence.1 _ _ _ _ Provider.anthropic rfl

theorem runResolutionKeyStep_branch (savedConfig : UserConfig) (env : Env) (isTTY : Bool)
    (io : InteractionOracle) (pr : ProviderChoice) (key : Option String)
    (h : runResolutionKeyStep savedConfig env isTTY io pr = .ok key)
    (htruthy : isTruthy key = true) :
    pr.ollamaMode = some OllamaMode.cloud ∨ pr.provider = Provider.anthropic := by
  unfold runResolutionKeyStep at h
  split at h
  · exact Or.inr (by assumption)
  · split at h
    · exact Or.inl (by assumption)
    · injection h with h2
      rw [← h2] at htruthy
      simp [isTruthy] at htruthy

/-- C2: after provider, credential and model resolution, the preference
tuple `{provider, ollamaMode (only when the provider is ollama), model,
apiKey (when one was obtained)}` is written if and only if provider
resolution was interactive, or model resolution was interactive, or a
credential was obtained this run while no saved key existed; in every
other case nothing is persisted. -/
theorem runResolution_persistence :
    ∀ args saved env isTTY io p om m key pfi mfi persisted,
      runResolution args saved env isTTY io = .resolved p om m key pfi mfi persisted →
      ((persisted ≠ none ↔
          pfi = true ∨ mfi = true ∨ (isTruthy key = true ∧ isTruthy saved.apiKey = false))
        ∧ ∀ c, persisted = some c →
            c = { provider := some p,
                  ollamaMode := if p = Provider.ollama then om else none,
                  model := some m,
                  apiKey := key }) := by
  intro args saved env isTTY io p om m key pfi mfi persisted h
  simp only [runResolution] at h
  cases hk : runResolutionKeyStep saved env isTTY io
      (resolveProvider args saved env io.providerPick) with
  | error c => rw [hk] at h; exact absurd h (by simp)
  | ok apiKey =>
    rw [hk] at h
    cases hm : runResolutionModelStep args saved io
        (resolveProvider args saved env io.providerPick) with
    | error c => rw [hm] at h; exact absurd h (by simp)
    | ok mm =>
      obtain ⟨model, modelFI⟩ := mm
      rw [hm] at h
      injection h with h1 h2 h3 h4 h5 h6 h7
      subst h1 h2 h3 h4 h5 h6 h7
      constructor
      · unfold persistedConfig
        split
        case isTrue hcond =>
          constructor
          · intro _
            rcases hcond with hP | hM | hNew
            · exact Or.inl hP
            · exact Or.inr (Or.inl hM)
            · exact Or.inr (Or.inr ⟨hNew.2.2, hNew.2.1⟩)
          · intro _
            simp
        case isFalse hcond =>
          constructor
          · intro hne
            exact absurd rfl hne
          · intro hrhs
            rcases hrhs with hP | hM | ⟨hkey, hsaved⟩
            · exact absurd (Or.inl hP) hcond
            · exact absurd (Or.inr (Or.inl hM)) hcond
            · exact absurd
                (Or.inr (Or.inr
                  ⟨runResolutionKeyStep_branch saved env isTTY io _ apiKey hk hkey,
                   hsaved, hkey⟩)) hcond
      · intro c hc
        unfold persistedConfig at hc
        split at hc
        · exact (Option.some.inj hc).symm
        · exact absurd hc (by simp)

/-- C2 witness: a run driven entirely by saved configuration (saved
ollama/local model still installed) resolves non-interactively, obtains
no credential, and persists nothing. -/
theorem runResolution_persistence_witness :
    ((none : Option UserConfig) ≠ none ↔
        false = true ∨ false = true ∨
          (isTruthy (none : Option String) = true ∧
            isTruthy ({ provider := some Provider.ollama,
                        ollamaMode := some OllamaMode.local,
                        model := some "llama3.2" } : UserConfig).apiKey = false))
      ∧ ∀ c, (none : Option UserConfig) = some c →
          c = { provider := some Provider.ollama,
                ollamaMode := (if Provider.ollama = Provider.ollama
                  then some OllamaMode.local else none),
                model := some "llama3.2",
                apiKey := (none : Option String) } :=
  runResolution_persistence {}
    { provider := some Provider.ollama, ollamaMode := some OllamaMode.local,
      model := some "llama3.2" }
    {} true { inventory := ["llama3.2"] }
    Provider.ollama (some OllamaMode.local) "llama3.2" none false false none
    (by decide)

/-- C3: Ollama local-mode model resolution: a CLI model flag wins
outright; else an empty live inventory is a fatal (thrown, non-exiting)
error whose message contains an install hint; else a saved local-mode
model still present in the inventory is used silently without `--setup`;
else a provider chosen by a one-off CLI flag without `--setup` silently
takes the first inventory model; otherwise the interactive picker is
shown (`fromInteractive = true`) — and a saved model absent from the
inventory with no CLI provider flag leads to exactly one picker
invocation. -/
theorem resolveOllamaModel_local_spec :
    (∀ args saved models cloudRaw pick m, args.model = some m →
        resolveOllamaModel args saved OllamaMode.local models cloudRaw pick = ⟨.ok m false, 0⟩)
    ∧ (∀ args saved cloudRaw pick, args.model = none →
        resolveOllamaModel args saved OllamaMode.local [] cloudRaw pick
          = ⟨.failure noLocalModelsMessage, 0⟩)
    ∧ (∃ pre post, noLocalModelsMessage = pre ++ "ollama pull" ++ post)
    ∧ (∀ args saved models cloudRaw pick sm, args.model = none → args.setup = false →
        saved.provider = some Provider.ollama → saved.ollamaMode = some OllamaMode.local →
        saved.model = some sm → (sm == "") = false → models.contains sm = true →
        resolveOllamaModel args saved OllamaMode.local models cloudRaw pick
          = ⟨.ok sm false, 0⟩)
    ∧ (∀ args saved first rest cloudRaw pick, args.model = none →
        args.provider.isSome = true → args.setup = false →
        savedLocalStillInstalled args saved (first :: rest) = false →
        resolveOllamaModel args saved OllamaMode.local (first :: rest) cloudRaw pick
          = ⟨.ok first false, 0⟩)
    ∧ (∀ args saved models cloudRaw pick, args.model = none → models ≠ [] →
        savedLocalStillInstalled args saved models = false →
        (args.provider = none ∨ args.setup = true) →
        resolveOllamaModel args saved OllamaMode.local models cloudRaw pick
          = ⟨.ok pick true, 1⟩)
    ∧ (∀ args saved models cloudRaw pick sm, args.model = none → args.provider = none →
        models ≠ [] → saved.model = some sm → models.contains sm = false →
        (resolveOllamaModel args saved OllamaMode.local models cloudRaw pick).pickerCalls
          = 1) := by
  refine ⟨?_, ?_, ?_, ?_, ?_, ?_, ?_⟩
  · intro args saved models cloudRaw pick m hm
    simp [resolveOllamaModel, hm]
  · intro args saved cloudRaw pick hm
    simp [resolveOllamaModel, hm]
  · exact ⟨"No local models found. Install one with:\n  ", " llama3.2", by decide⟩
  · intro args saved models cloudRaw pick sm hm hsetup hsp hsm hmodel hne hcontains
    have hmem : sm ∈ models := by simpa using hcontains
    have hinst : savedLocalStillInstalled args saved models = true := by
      simp [savedLocalStillInstalled, hsetup, hsp, hsm, hmodel, isTruthy, hne, hmem]
    cases models with
    | nil => simp at hmem
    | cons first rest =>
      simp [resolveOllamaModel, hm, hinst, hmodel]
  · intro args saved first rest cloudRaw pick hm hprov hsetup hinst
    simp [resolveOllamaModel, hm, hinst, hprov, hsetup]
  · intro args saved models cloudRaw pick hm hne hinst hcase
    cases models with
    | nil => exact absurd rfl hne
    | cons first rest =>
      rcases hcase with hprov | hsetup
      · simp [resolveOllamaModel, hm, hinst, hprov]
      · simp [resolveOllamaModel, hm, hinst, hsetup]
  · intro args saved models cloudRaw pick sm hm hprov hne hmodel hcontains
    have hmem : ¬ sm ∈ models := by simpa using hcontains
    have hinst : savedLocalStillInstalled args saved models = false := by
      simp [savedLocalStillInstalled, hmodel, isTruthy, hmem]
    cases models with
    | nil => exact absurd rfl hne
    | cons first rest =>
      simp [resolveOllamaModel, hm, hinst, hprov]

/-- C3 witness: with no CLI flags, a saved local model that is no longer
installed, and inventory `["llama3.2", "mistral"]`, the picker is shown
exactly once. -/
theorem resolveOllamaModel_local_spec_witness :
    (resolveOllamaModel {}
        { provider := some Provider.ollama, ollamaMode := some OllamaMode.local,
          model := some "gone" }
        OllamaMode.local ["llama3.2", "mistral"] "" "mistral").pickerCalls = 1 :=
  resolveOllamaModel_local_spec.2.2.2.2.2.2 {} _ _ "" "mistral" "gone" rfl rfl
    (by decide) rfl (by decide)

/-- An optional key whose trimmed value is blank: absent, or trimming to
the empty string (the source's falsyness of `key?.trim()`). -/
def blankKey : Option String → Prop
  | none => True
  | some s => jsTrim s = ""

/-- C4: `resolveApiKey` returns the environment key trimmed when present
and non-blank, else the saved key trimmed when non-blank; when neither
yields a key it exits with code 1 after printing a message naming the
required environment variable if no interactive terminal is attached,
and otherwise prompts for free-text entry, exiting with code 1 when the
(trimmed) entry is empty and returning the entry when it is not. -/
theorem resolveApiKey_spec :
    (∀ savedKey label envVarName isTTY raw e, jsTrim e ≠ "" →
        resolveApiKey (some e) savedKey label envVarName isTTY raw = .obtained (jsTrim e))
    ∧ (∀ envKey label envVarName isTTY raw s, blankKey envKey → jsTrim s ≠ "" →
        resolveApiKey envKey (some s) label envVarName isTTY raw = .obtained (jsTrim s))
    ∧ (∀ envKey savedKey label envVarName raw, blankKey envKey → blankKey savedKey →
        resolveApiKey envKey savedKey label envVarName false raw
          = .exit 1 (label ++ " provider requires " ++ envVarName ++ ".\nSet it with: "
              ++ envVarName ++ "=... aicommit"))
    ∧ (∀ envKey savedKey label envVarName raw, blankKey envKey → blankKey savedKey →
        jsTrim raw = "" →
        resolveApiKey envKey savedKey label envVarName true raw
          = .exit 1 ("API key is required for " ++ label ++ " provider."))
    ∧ (∀ envKey savedKey label envVarName raw, blankKey envKey → blankKey savedKey →
        jsTrim raw ≠ "" →
        resolveApiKey envKey savedKey label envVarName true raw
          = .obtained (jsTrim raw)) := by
  refine ⟨?_, ?_, ?_, ?_, ?_⟩
  · intro savedKey label envVarName isTTY raw e he
    simp [resolveApiKey, he]
  · intro envKey label envVarName isTTY raw s henv hs
    cases envKey with
    | none => simp [resolveApiKey, hs]
    | some e =>
      have he : jsTrim e = "" := henv
      simp [resolveApiKey, he, hs]
  · intro envKey savedKey label envVarName raw henv hsaved
    cases envKey with
    | none =>
      cases savedKey with
      | none => simp [resolveApiKey, resolveApiKeyNoKey]
      | some s => have hs : jsTrim s = "" := hsaved
                  simp [resolveApiKey, resolveApiKeyNoKey, hs]
    | some e =>
      have he : jsTrim e = "" := henv
      cases savedKey with
      | none => simp [resolveApiKey, resolveApiKeyNoKey, he]
      | some s => have hs : jsTrim s = "" := hsaved
                  simp [resolveApiKey, resolveApiKeyNoKey, he, hs]
  · intro envKey savedKey label envVarName raw henv hsaved hraw
    cases envKey with
    | none =>
      cases savedKey with
      | none => simp [resolveApiKey, resolveApiKeyNoKey, promptInput, hraw]
      | some s => have hs : jsTrim s = "" := hsaved
                  simp [resolveApiKey, resolveApiKeyNoKey, promptInput, hs, hraw]
    | some e =>
      have he : jsTrim e = "" := henv
      cases savedKey with
      | none => simp [resolveApiKey, resolveApiKeyNoKey, promptInput, he, hraw]
      | some s => have hs : jsTrim s = "" := hsaved
                  simp [resolveApiKey, resolveApiKeyNoKey, promptInput, he, hs, hraw]
  · intro envKey savedKey label envVarName raw henv hsaved hraw
    cases envKey with
    | none =>
      cases savedKey with
      | none => simp [resolveApiKey, resolveApiKeyNoKey, promptInput, hraw]
      | some s => have hs : jsTrim s = "" := hsaved
                  simp [resolveApiKey, resolveApiKeyNoKey, promptInput, hs, hraw]
    | some e =>
      have he : jsTrim e = "" := henv
      cases savedKey with
      | none => simp [resolveApiKey, resolveApiKeyNoKey, promptInput, he, hraw]
      | some s => have hs : jsTrim s = "" := hsaved
                  simp [resolveApiKey, resolveApiKeyNoKey, promptInput, he, hs, hraw]

/-- C4 witness: a whitespace-padded environment key is returned trimmed,
winning over a saved key. -/
theorem resolveApiKey_spec_witness :
    resolveApiKey (some "  sk-env  ") (some "sk-saved") "Anthropic" "ANTHROPIC_API_KEY"
        false "" = .obtained (jsTrim "  sk-env  ") :=
  resolveApiKey_spec.1 (some "sk-saved") "Anthropic" "ANTHROPIC_API_KEY" false ""
    "  sk-env  " (by decide)

/-- C5 (code bug): the Presenting-state key handler resolves `a`/`A` to
accept, `r` to regenerate, `e` to edit, case-insensitively, exits 0 on
Escape or Ctrl-C, and ignores other keys — but it IGNORES Enter (key
name `return`), although the claim, the README key table (`a`/`A`/Enter
accept) and tui.test.ts (`resolves 'accept' when Enter is pressed`) all
require Enter to accept. -/
theorem promptUser_keys :
    promptUserOnKey (some { name := some "return" }) = PromptStep.ignore
    ∧ promptUserOnKey (some { name := some "return" })
        ≠ PromptStep.resolve UserChoice.accept
    ∧ promptUserOnKey (some { name := some "a" }) = PromptStep.resolve UserChoice.accept
    ∧ promptUserOnKey (some { name := some "A" }) = PromptStep.resolve UserChoice.accept
    ∧ promptUserOnKey (some { name := some "r" }) = PromptStep.resolve UserChoice.regenerate
    ∧ promptUserOnKey (some { name := some "R" }) = PromptStep.resolve UserChoice.regenerate
    ∧ promptUserOnKey (some { name := some "e" }) = PromptStep.resolve UserChoice.edit
    ∧ promptUserOnKey (some { name := some "E" }) = PromptStep.resolve UserChoice.edit
    ∧ promptUserOnKey (some { name := some "escape" }) = PromptStep.exitProcess 0
    ∧ promptUserOnKey (some { name := some "c", ctrl := true }) = PromptStep.exitProcess 0
    ∧ promptUserOnKey (some { name := some "z" }) = PromptStep.ignore
    ∧ promptUserOnKey none = PromptStep.ignore := by
  decide

/-- C6 counterexample: an interrupt keypress (Ctrl-C) delivered at the
edit dialog does not reach the cancel path — `editMessage`'s key handler
checks only for an `escape` key name — refuting the claim that an
interrupt at any prompt terminates the process with exit code 0. -/
theorem editMessage_interrupt_not_cancel :
    editMessageOnKey (some { name := some "c", ctrl := true }) = EditStep.ignore
    ∧ editMessageOnKey (some { name := some "c", ctrl := true })
        ≠ EditStep.exitProcess 0 := by
  decide

/-- C6 (amended): Escape at any prompt of the interaction (message
prompt, edit dialog, selection menu) and an interrupt at the message
prompt or the selection menu reach the cancel path, which exits the
process with code 0; whenever the interaction loop ends by that exit
(code 0), the commit collaborator was never invoked.  At the edit dialog
an interrupt keypress is ignored by the dialog's key handler. -/
theorem interaction_cancel_spec :
    promptUserOnKey (some { name := some "escape" }) = PromptStep.exitProcess 0
    ∧ promptUserOnKey (some { name := some "c", ctrl := true }) = PromptStep.exitProcess 0
    ∧ selectFromListOnKey (some { name := some "escape" }) = SelectStep.exitProcess 0
    ∧ selectFromListOnKey (some { name := some "c", ctrl := true })
        = SelectStep.exitProcess 0
    ∧ editMessageOnKey (some { name := some "escape" }) = EditStep.exitProcess 0
    ∧ editMessageOnKey (some { name := some "c", ctrl := true }) = EditStep.ignore
    ∧ (∀ commit message trace,
        (runInteractionLoop commit message trace).2 = LoopResult.exited 0 →
        (runInteractionLoop commit message trace).1 = []) := by
  refine ⟨by decide, by decide, by decide, by decide, by decide, by decide, ?_⟩
  intro commit message trace
  induction trace generalizing message with
  | nil =>
    intro h
    simp [runInteractionLoop] at h
  | cons t rest ih =>
    cases t with
    | cancel => intro _; rfl
    | accept =>
      intro h
      exfalso
      simp only [runInteractionLoop] at h
      split at h
      · rename_i hne
        rw [LoopResult.exited.injEq] at h
        exact hne h
      · exact absurd h (by simp)
    | regenerate gen =>
      cases gen with
      | error e =>
        intro h
        simp [runInteractionLoop] at h
      | ok m2 =>
        intro h
        simp only [runInteractionLoop] at h ⊢
        exact ih m2 h
    | editCancel => intro _; rfl
    | editSubmit raw =>
      intro h
      exfalso
      simp only [runInteractionLoop] at h
      split at h
      · rename_i hne
        rw [LoopResult.exited.injEq] at h
        exact hne h
      · exact absurd h (by simp)

/-- C6 witness (for the amended loop clause): a run cancelled at the
first message prompt exits with code 0 and the commit list is empty. -/
theorem interaction_cancel_spec_witness :
    (runInteractionLoop (fun _ => 0) "feat: x" [Turn.cancel]).1 = [] :=
  interaction_cancel_spec.2.2.2.2.2.2 (fun _ => 0) "feat: x" [Turn.cancel] rfl

/-- C7: the edit dialog's result is the edited text trimmed when that
trim is non-empty, and the original pre-edit message unmodified when the
edited text trims to empty; whatever the edit dialog returns is handed
to the commit collaborator immediately, with no further prompt consumed
(no re-preview after the edit). -/
theorem editMessage_result_spec :
    (∀ original edited, jsTrim edited ≠ "" →
        editMessageResult original edited = jsTrim edited)
    ∧ (∀ original edited, jsTrim edited = "" →
        editMessageResult original edited = original)
    ∧ (∀ commit message raw rest,
        runInteractionLoop commit message (Turn.editSubmit raw :: rest)
          = ([editMessageResult message raw],
             if commit (editMessageResult message raw) ≠ 0
               then LoopResult.exited (commit (editMessageResult message raw))
               else LoopResult.completed)) := by
  refine ⟨?_, ?_, ?_⟩
  · intro original edited h
    simp [editMessageResult, h]
  · intro original edited h
    simp [editMessageResult, h]
  · intro commit message raw rest
    rfl

/-- C7 witness: an all-whitespace edit of `"feat: x"` commits the
original message unchanged. -/
theorem editMessage_result_spec_witness :
    editMessageResult "feat: x" "   " = "feat: x" :=
  editMessage_result_spec.2.1 "feat: x" "   " (by decide)

/-- C8: when the user accepts (or edits) and the commit collaborator
returns a non-zero status, the process exits with exactly that status
(no normalization to 1); a zero status ends the run normally with no
process-exit call.  `runCommit` itself forwards the spawned process's
status verbatim (with only a `null` status mapped to 1). -/
theorem commit_status_spec :
    (∀ message spawner s, (spawner "git" ["commit", "-m", message]).error = none →
        (spawner "git" ["commit", "-m", message]).status = some s →
        runCommit message spawner = .ok s)
    ∧ (∀ commit message rest, commit message ≠ 0 →
        runInteractionLoop commit message (Turn.accept :: rest)
          = ([message], LoopResult.exited (commit message)))
    ∧ (∀ commit message rest, commit message = 0 →
        runInteractionLoop commit message (Turn.accept :: rest)
          = ([message], LoopResult.completed))
    ∧ (∀ commit message raw rest, commit (editMessageResult message raw) ≠ 0 →
        runInteractionLoop commit message (Turn.editSubmit raw :: rest)
          = ([editMessageResult message raw],
             LoopResult.exited (commit (editMessageResult message raw))))
    ∧ (∀ commit message raw rest, commit (editMessageResult message raw) = 0 →
        runInteractionLoop commit message (Turn.editSubmit raw :: rest)
          = ([editMessageResult message raw], LoopResult.completed)) := by
  refine ⟨?_, ?_, ?_, ?_, ?_⟩
  · intro message spawner s herr hstatus
    simp only [runCommit]
    rw [herr, hstatus]
    rfl
  · intro commit message rest h
    simp [runInteractionLoop, h]
  · intro commit message rest h
    simp [runInteractionLoop, h]
  · intro commit message raw rest h
    simp [runInteractionLoop, h]
  · intro commit message raw rest h
    simp [runInteractionLoop, h]

/-- C8 witness: a commit collaborator returning 128 makes the loop exit
with exactly 128 after an accept. -/
theorem commit_status_spec_witness :
    runInteractionLoop (fun _ => 128) "feat: x" [Turn.accept]
      = (["feat: x"], LoopResult.exited ((fun _ => (128 : Int)) "feat: x")) :=
  commit_status_spec.2.1 (fun _ => 128) "feat: x" [] (by decide)

/-- C9 (code bug): `parseArgs` accepts `-m` and `--model` with a name,
`--local`, `--cloud`, `--anthropic`, `--setup`, `-v` and `--version`,
`-h` and `--help`, and
treats an unknown flag or a `--model`/`-m` with a missing, empty, or
flag-shaped value as a thrown parse error (which `run` prints to the
error stream and turns into exit 1) — but it REJECTS `--openai`,
`--reset`, `-y` and `--yes` as unknown options, although the claim, the
README options table and config.test.ts (`parses --openai`) list them as
accepted flags. -/
theorem parseArgs_flags :
    parseArgs ["--local"] = .ok { provider := some Provider.ollama, ollamaMode := some OllamaMode.local }
    ∧ parseArgs ["--cloud"] = .ok { provider := some Provider.ollama, ollamaMode := some OllamaMode.cloud }
    ∧ parseArgs ["--anthropic"] = .ok { provider := some Provider.anthropic }
    ∧ parseArgs ["--setup"] = .ok { setup := true }
    ∧ parseArgs ["--help"] = .ok { help := true }
    ∧ parseArgs ["-h"] = .ok { help := true }
    ∧ parseArgs ["--version"] = .ok { version := true }
    ∧ parseArgs ["-v"] = .ok { version := true }
    ∧ parseArgs ["--model", "mistral"] = .ok { model := some "mistral" }
    ∧ parseArgs ["-m", "codellama"] = .ok { model := some "codellama" }
    ∧ parseArgs ["--model"] = .error "--model requires a model name (e.g. --model mistral)"
    ∧ parseArgs ["--model", "--help"]
        = .error "--model requires a model name (e.g. --model mistral)"
    ∧ parseArgs ["--unknown"] = .error "Unknown option: --unknown"
    ∧ parseArgs ["--openai"] = .error "Unknown option: --openai"
    ∧ parseArgs ["--reset"] = .error "Unknown option: --reset"
    ∧ parseArgs ["-y"] = .error "Unknown option: -y"
    ∧ parseArgs ["--yes"] = .error "Unknown option: --yes" :=
  ⟨rfl, rfl, rfl, rfl, rfl, rfl, rfl, rfl, rfl, rfl, rfl, rfl, rfl, rfl, rfl, rfl, rfl⟩

/-- C10: for each provider family, a successful wire response yields
exactly the response's content field trimmed of leading and trailing
whitespace (ollama: `message.content`; Anthropic: `content[0].text`;
OpenAI: `output_text`, falling back to `output[0].content[0].text`), so
the candidate message carries no surrounding whitespace. -/
theorem generate_message_trimmed :
    (∀ resp t, ollamaParseResponse resp = .ok t →
        ∃ raw, resp.messageContent = some raw ∧ t = jsTrim raw ∧ jsTrim t = t)
    ∧ (∀ resp t, anthropicParseResponse resp = .ok t →
        ∃ raw, resp.contentTexts.head? = some (some raw) ∧ t = jsTrim raw ∧ jsTrim t = t)
    ∧ (∀ resp t, openaiParseResponse resp = .ok t →
        ∃ raw, (resp.outputText = some raw
            ∨ (resp.outputText = none ∧ resp.outputFirstText = some raw))
          ∧ t = jsTrim raw ∧ jsTrim t = t) := by
  refine ⟨?_, ?_, ?_⟩
  · intro resp t h
    unfold ollamaParseResponse at h
    split at h
    · exact absurd h (by simp)
    · split at h
      · rename_i content hc
        injection h with ht
        exact ⟨content, hc ▸ rfl, ht.symm, by rw [← ht, jsTrim_idem]⟩
      · exact absurd h (by simp)
  · intro resp t h
    unfold anthropicParseResponse at h
    split at h
    · exact absurd h (by simp)
    · split at h
      · rename_i text hc
        injection h with ht
        exact ⟨text, hc, ht.symm, by rw [← ht, jsTrim_idem]⟩
      · exact absurd h (by simp)
  · intro resp t h
    unfold openaiParseResponse at h
    split at h
    · exact absurd h (by simp)
    · split at h
      · rename_i text hc
        injection h with ht
        refine ⟨text, ?_, ht.symm, by rw [← ht, jsTrim_idem]⟩
        cases ho : resp.outputText with
        | some u =>
          rw [ho] at hc
          have hu : some u = some text := hc
          exact Or.inl hu
        | none =>
          rw [ho] at hc
          have hf : resp.outputFirstText = some text := hc
          exact Or.inr ⟨rfl, hf⟩
      · exact absurd h (by simp)

/-- A concrete successful ollama response with padded content,
used only by the C10 witness. -/
def ollamaRespSample : OllamaChatResponse :=
  { ok := true, status := 200, statusText := "OK",
    messageContent := some "  feat: add login  " }

/-- C10 witness: an ollama response whose `message.content` is
`"  feat: add login  "` yields the trimmed text. -/
theorem generate_message_trimmed_witness :
    ∃ raw, ollamaRespSample.messageContent = some raw
      ∧ "feat: add login" = jsTrim raw ∧ jsTrim "feat: add login" = "feat: add login" :=
  generate_message_trimmed.1 ollamaRespSample "feat: add login" rfl

end Penmit
